import Mathlib

/-!
Shallow embedding of the streaming dialogue audio/text pipeline of
live2d-viewer-chat (src/script.js and src/static/audio-processor.js),
with theorems settling the frozen claims about it.

Conventions:
- JS numbers used as indices / session ids are modelled as `Nat`.
- Audio blobs are opaque values of a type parameter `α`
  (`URL.createObjectURL` is modelled as the identity handle).
- A JS `Map` keyed by integers is modelled as an association list with
  unique keys (`mapGet` / `mapSet` / `mapDelete` below follow
  `Map.get` / `Map.set` / `Map.delete` semantics).
- Float samples are modelled as rationals; the concrete inputs appearing
  in the claims (-1.5, -1, 0, 1, 1.5) are exactly representable as
  binary floats, so the rational model agrees with the source there.
-/


namespace LiveChat

/-! JS Map model: association list with unique keys. -/

/-- Model of `Map.prototype.get`: value stored under key `i`, if any. -/
def mapGet {α : Type} : List (Nat × α) → Nat → Option α
  | [], _ => none
  | p :: m, i => if p.1 == i then some p.2 else mapGet m i

/-- Model of `Map.prototype.set`: replace in place if the key exists,
otherwise append a fresh entry (JS Maps keep insertion order). -/
def mapSet {α : Type} : List (Nat × α) → Nat → α → List (Nat × α)
  | [], i, v => [(i, v)]
  | p :: m, i, v => if p.1 == i then (i, v) :: m else p :: mapSet m i v

/-- Model of `Map.prototype.delete`: remove the entry under the key
(keys are unique, so removing the first occurrence removes the entry). -/
def mapDelete {α : Type} : List (Nat × α) → Nat → List (Nat × α)
  | [], _ => []
  | p :: m, i => if p.1 == i then m else p :: mapDelete m i

theorem mapDelete_length_lt {α : Type} {m : List (Nat × α)} {i : Nat} {v : α}
    (h : mapGet m i = some v) : (mapDelete m i).length < m.length := by
  induction m with
  | nil => simp [mapGet] at h
  | cons p t ih =>
    by_cases hp : p.1 == i
    · simp [mapDelete, hp]
    · simp only [mapGet, hp, if_neg, Bool.false_eq_true, ite_false] at h
      simpa [mapDelete, hp] using Nat.succ_lt_succ (ih h)


/-! Capture Framer: `AudioProcessor` from src/static/audio-processor.js.
The fixed `Int16Array(512)` plus write index is modelled as the list of
valid samples written so far (`buffer`); `bufferIndex` is its length. -/

/-- Truncation toward zero of a rational, as JS ToIntegerOrInfinity does
when a number is stored into an `Int16Array`. -/
def truncQ (q : ℚ) : ℤ :=
  if q < 0 then -((-q).num / ((-q).den : ℤ)) else q.num / (q.den : ℤ)

/-- Reduction modulo 2^16 into the signed 16-bit range, as performed by
an `Int16Array` element store. -/
def int16Store (n : ℤ) : ℤ :=
  let m := n % 65536
  if m < 32768 then m else m - 65536

/-- One sample conversion from audio-processor.js line 17-18:
`s = Math.max(-1, Math.min(1, x)); s < 0 ? s * 0x8000 : s * 0x7FFF`,
stored into the `Int16Array`. -/
def toPcm16 (x : ℚ) : ℤ :=
  let s := max (-1) (min 1 x)
  int16Store (truncQ (if s < 0 then s * 32768 else s * 32767))

/-- frame capacity: `this.bufferSize = 512`. -/
def bufferSize : Nat := 512

/-- State of the framer: the valid prefix of the `Int16Array`. -/
structure AudioProcessor where
  buffer : List ℤ
deriving Repr, DecidableEq

def AudioProcessor.init : AudioProcessor := ⟨[]⟩

/-- Model of `flush()`: emit the valid prefix when non-empty and reset
the write index; returns the new state and the emitted frames. -/
def AudioProcessor.flush (st : AudioProcessor) :
    AudioProcessor × List (List ℤ) :=
  if st.buffer.length > 0 then (⟨[]⟩, [st.buffer]) else (st, [])

/-- One loop iteration of `process`: convert one sample, append it, and
flush when the buffer reaches capacity. -/
def AudioProcessor.pushSample (st : AudioProcessor) (x : ℚ) :
    AudioProcessor × List (List ℤ) :=
  let buf : List ℤ := st.buffer ++ [toPcm16 x]
  if buf.length ≥ bufferSize then AudioProcessor.flush ⟨buf⟩
  else (⟨buf⟩, [])

/-- Model of `process(inputs, ...)` applied to a block of input samples
(the source iterates `inputData` sample by sample); frames emitted by
inner flushes are collected in order. -/
def AudioProcessor.process (st : AudioProcessor) :
    List ℚ → AudioProcessor × List (List ℤ)
  | [] => (st, [])
  | x :: xs =>
    let r1 := st.pushSample x
    let r2 := AudioProcessor.process r1.1 xs
    (r2.1, r1.2 ++ r2.2)

/-! Reassembly Queue and Playback Scheduler: `class AudioQueue`
from src/script.js lines 543-626. The `released` field is a history
variable not present in the source: it records, in order, every
`(nextIndex, blob)` pair appended to the ready queue by
`processBuffer`, so that release-order properties can be stated.
No operation reads it. -/

structure AudioQueue (α : Type) where
  queue : List α
  isPlaying : Bool
  currentAudio : Option α
  pendingAudios : List (Nat × α)
  nextIndex : Nat
  currentSessionId : Nat
  released : List (Nat × α)
deriving Repr, DecidableEq

/-- Constructor state of `AudioQueue`. -/
def AudioQueue.init {α : Type} : AudioQueue α :=
  { queue := [], isPlaying := false, currentAudio := none,
    pendingAudios := [], nextIndex := 0, currentSessionId := 0,
    released := [] }

/-- Model of `processQueue()`: when idle and the ready queue is
non-empty, shift the head and begin playing it (`new Audio(url)`;
the object URL is modelled as the blob itself). The `onended`,
`onerror` and autoplay-rejection callbacks run asynchronously and are
modelled as the separate `ended` event below. -/
def AudioQueue.processQueue {α : Type} (q : AudioQueue α) : AudioQueue α :=
  if q.isPlaying || q.queue.isEmpty then q
  else
    { q with isPlaying := true, queue := q.queue.drop 1,
             currentAudio := q.queue.head? }

/-- The `while (this.pendingAudios.has(this.nextIndex))` loop of
`processBuffer()`: repeatedly move the blob stored under `nextIndex`
from the pending buffer to the end of the ready queue and increment
`nextIndex`. -/
def AudioQueue.processBufferLoop {α : Type} (q : AudioQueue α) : AudioQueue α :=
  match h : mapGet q.pendingAudios q.nextIndex with
  | some blob =>
    AudioQueue.processBufferLoop
      { q with pendingAudios := mapDelete q.pendingAudios q.nextIndex,
               queue := q.queue ++ [blob],
               released := q.released ++ [(q.nextIndex, blob)],
               nextIndex := q.nextIndex + 1 }
  | none => q
termination_by q.pendingAudios.length
decreasing_by simpa using mapDelete_length_lt h

/-- Model of `processBuffer()`: drain the pending buffer in index
order, then trigger playback. -/
def AudioQueue.processBuffer {α : Type} (q : AudioQueue α) : AudioQueue α :=
  (AudioQueue.processBufferLoop q).processQueue

/-- Model of `add(audioBlob, index, sessionId)`: discard silently when
the session id is stale, otherwise store the blob under its index and
run `processBuffer`. -/
def AudioQueue.add {α : Type} (q : AudioQueue α) (audioBlob : α)
    (index sessionId : Nat) : AudioQueue α :=
  if sessionId != q.currentSessionId then q
  else
    AudioQueue.processBuffer
      { q with pendingAudios := mapSet q.pendingAudios index audioBlob }

/-- Model of `stop()`: clear the ready queue, halt playback, clear the
pending buffer, reset `nextIndex`; the session id is not changed. -/
def AudioQueue.stop {α : Type} (q : AudioQueue α) : AudioQueue α :=
  { q with queue := [], currentAudio := none, isPlaying := false,
           pendingAudios := [], nextIndex := 0 }

/-- Model of `startSession()`: `stop()` then increment and return the
current session id. -/
def AudioQueue.startSession {α : Type} (q : AudioQueue α) :
    AudioQueue α × Nat :=
  let q1 := q.stop
  let q2 := { q1 with currentSessionId := q1.currentSessionId + 1 }
  (q2, q2.currentSessionId)

/-- Asynchronous playback-completion callback (`onended`, and likewise
`onerror` / the autoplay-rejection handler): mark idle and try the next
unit. -/
def AudioQueue.ended {α : Type} (q : AudioQueue α) : AudioQueue α :=
  AudioQueue.processQueue { q with isPlaying := false }

/-- Events that drive an `AudioQueue` instance. -/
inductive AQEvent (α : Type) where
  | add (blob : α) (index sessionId : Nat)
  | start
  | stop
  | ended
deriving Repr, DecidableEq

def AudioQueue.step {α : Type} (q : AudioQueue α) : AQEvent α → AudioQueue α
  | .add b i sid => q.add b i sid
  | .start => q.startSession.1
  | .stop => q.stop
  | .ended => q.ended

/-- Run a list of events from a given state. -/
def AudioQueue.runFrom {α : Type} (q : AudioQueue α) (es : List (AQEvent α)) :
    AudioQueue α :=
  es.foldl AudioQueue.step q

/-- Run a list of events from the constructor state. -/
def AudioQueue.run {α : Type} (es : List (AQEvent α)) : AudioQueue α :=
  AudioQueue.runFrom AudioQueue.init es

/-! Segmenter: the `ttsBuffer` / `sentenceIndex` segmentation loop of
`sendMessage` in src/script.js lines 660-765, with strings modelled as
lists of characters. -/

/-- The boundary character class of
`const punctuations = /[，。！？；,.!?;:\n]/`. -/
def isBoundaryChar (c : Char) : Bool :=
  c == '，' || c == '。' || c == '！' || c == '？' || c == '；' ||
  c == ',' || c == '.' || c == '!' || c == '?' || c == ';' ||
  c == ':' || c == '\n'

/-- Index of the first boundary character, as `punctuations.exec`
reports for a regex without the global flag. -/
def findBoundary : List Char → Option Nat
  | [] => none
  | c :: cs =>
    if isBoundaryChar c then some 0 else (findBoundary cs).map (· + 1)

/-- Whitespace recognized by `String.prototype.trim`; the sources and
the claims only exercise the ASCII whitespace characters. -/
def isJsSpace (c : Char) : Bool :=
  c == ' ' || c == '\t' || c == '\n' || c == '\r'

/-- Model of `String.prototype.trim`: strip whitespace from both ends. -/
def jsTrim (s : List Char) : List Char :=
  ((s.dropWhile isJsSpace).reverse.dropWhile isJsSpace).reverse

/-- Segmenter state: the accumulation buffer `ttsBuffer` and the
auto-incrementing counter `sentenceIndex`. -/
structure Segmenter where
  ttsBuffer : List Char
  sentenceIndex : Nat
deriving Repr, DecidableEq

theorem findBoundary_lt_length {s : List Char} {i : Nat}
    (h : findBoundary s = some i) : i < s.length := by
  induction s generalizing i with
  | nil => simp [findBoundary] at h
  | cons c cs ih =>
    rw [findBoundary] at h
    by_cases hc : isBoundaryChar c
    · rw [if_pos hc] at h
      cases h
      simp
    · rw [if_neg hc, Option.map_eq_some'] at h
      obtain ⟨j, hj, hji⟩ := h
      subst hji
      simpa using Nat.succ_lt_succ (ih hj)

/-- The `while ((match = punctuations.exec(ttsBuffer)) !== null)` loop:
cut the buffer after the first boundary, trim the cut prefix, emit it
with the next index when non-empty (an empty trim result is dropped
without consuming an index), and continue on the rest of the buffer.
Returns the emitted `(index, text)` units and the final state. -/
def Segmenter.segmentLoop (st : Segmenter) :
    List (Nat × List Char) × Segmenter :=
  match h : findBoundary st.ttsBuffer with
  | some i =>
    let sentence := jsTrim (st.ttsBuffer.take (i + 1))
    let rest := st.ttsBuffer.drop (i + 1)
    if sentence.isEmpty then
      Segmenter.segmentLoop { ttsBuffer := rest, sentenceIndex := st.sentenceIndex }
    else
      let r := Segmenter.segmentLoop
        { ttsBuffer := rest, sentenceIndex := st.sentenceIndex + 1 }
      ((st.sentenceIndex, sentence) :: r.1, r.2)
  | none => ([], st)
termination_by st.ttsBuffer.length
decreasing_by
  all_goals
    simp only [List.length_drop]
    have := findBoundary_lt_length h
    omega

/-- Processing of one streamed content fragment: `ttsBuffer += content`
followed by the segmentation loop. -/
def Segmenter.feedContent (st : Segmenter) (content : List Char) :
    List (Nat × List Char) × Segmenter :=
  Segmenter.segmentLoop
    { ttsBuffer := st.ttsBuffer ++ content, sentenceIndex := st.sentenceIndex }

/-- Feed a whole sequence of content fragments, collecting the emitted
units in order. -/
def Segmenter.feedAll (st : Segmenter) :
    List (List Char) → List (Nat × List Char) × Segmenter
  | [] => ([], st)
  | f :: fs =>
    let r1 := st.feedContent f
    let r2 := Segmenter.feedAll r1.2 fs
    (r1.1 ++ r2.1, r2.2)

/-- End-of-stream handling: `if (ttsBuffer.trim())` dispatch the
trimmed remainder as one final unit. -/
def Segmenter.flushRemaining (st : Segmenter) : List (Nat × List Char) :=
  if (jsTrim st.ttsBuffer).isEmpty then []
  else [(st.sentenceIndex, jsTrim st.ttsBuffer)]

/-- Units emitted for one whole generation: a fresh segmenter fed all
fragments, then the end-of-stream flush. -/
def segmentGeneration (frags : List (List Char)) : List (Nat × List Char) :=
  let r := Segmenter.feedAll ⟨[], 0⟩ frags
  r.1 ++ Segmenter.flushRemaining r.2

/-- The list a, a+1, ..., a+n-1, for stating index contiguity. -/
def natRange (a : Nat) : Nat → List Nat
  | 0 => []
  | n + 1 => a :: natRange (a + 1) n

/-! Recognition client: the frame path of `startRecording` /
`stopRecording` in src/script.js lines 417-514. -/

/-- WebSocket ready states. -/
inductive WsReadyState where
  | connecting
  | opened
  | closing
  | closed
deriving Repr, DecidableEq

/-- The recording-side state visible to the frame handler: the
`isRecording` flag, the ASR socket ready state, and the frames sent so
far on the socket. -/
structure AsrClient (φ : Type) where
  isRecording : Bool
  readyState : WsReadyState
  sentFrames : List φ
deriving Repr, DecidableEq

/-- Model of `processor.port.onmessage`:
`if (!isRecording || asrSocket.readyState !== WebSocket.OPEN) return;`
then `asrSocket.send(e.data)`. Nothing is buffered on the drop path. -/
def AsrClient.onAudioFrame {φ : Type} (c : AsrClient φ) (frame : φ) :
    AsrClient φ :=
  if !c.isRecording || !(c.readyState == WsReadyState.opened) then c
  else { c with sentFrames := c.sentFrames ++ [frame] }

/-- The frame-path effect of `stopRecording()`: clear `isRecording`.
(The stop control message, UI updates and `audioContext.close()` do not
touch the frame handler state.) -/
def AsrClient.stopRecording {φ : Type} (c : AsrClient φ) : AsrClient φ :=
  { c with isRecording := false }

/-! Concrete scenario states used by the claims. -/

/-- Final state of the C1 test scenario: a fresh session (id 1), then
`add(blobC, 2, 1)`, `add(blobA, 0, 1)`, `add(blobB, 1, 1)` with
blobA = 10, blobB = 20, blobC = 30. -/
def c1Final : AudioQueue Nat :=
  (((AudioQueue.init).startSession.1.add 30 2 1).add 10 0 1).add 20 1 1

/-- State after: fresh session 1, synthesis for index 0 failed (never
added), synthesis for indices 1 and 2 succeeded and were added. -/
def c3Blocked : AudioQueue Nat :=
  (((AudioQueue.init).startSession.1).add 42 1 1).add 43 2 1

/-- State after: fresh session 1, then `add(11, 0, 1)` (released). -/
def c7One : AudioQueue Nat := ((AudioQueue.init).startSession.1).add 11 0 1

/-! Supporting lemmas. -/

theorem mapGet_mapSet_ne {α : Type} (m : List (Nat × α)) {i j : Nat} (v : α)
    (hij : i ≠ j) : mapGet (mapSet m i v) j = mapGet m j := by
  induction m with
  | nil => simp [mapGet, mapSet, Nat.beq_eq_true_eq, hij]
  | cons p t ih =>
    by_cases hp : p.1 == i
    · have hp' : p.1 = i := beq_iff_eq.mp hp
      simp [mapSet, hp, mapGet, hp', Nat.beq_eq_true_eq, hij]
    · by_cases hq : p.1 == j
      · simp [mapSet, hp, mapGet, hq]
      · simp [mapSet, hp, mapGet, hq, ih]



theorem processQueue_pendingAudios {α : Type} (q : AudioQueue α) :
    q.processQueue.pendingAudios = q.pendingAudios := by
  unfold AudioQueue.processQueue
  split <;> rfl

theorem processQueue_nextIndex {α : Type} (q : AudioQueue α) :
    q.processQueue.nextIndex = q.nextIndex := by
  unfold AudioQueue.processQueue
  split <;> rfl

theorem processQueue_released {α : Type} (q : AudioQueue α) :
    q.processQueue.released = q.released := by
  unfold AudioQueue.processQueue
  split <;> rfl

theorem processQueue_currentSessionId {α : Type} (q : AudioQueue α) :
    q.processQueue.currentSessionId = q.currentSessionId := by
  unfold AudioQueue.processQueue
  split <;> rfl

theorem processQueue_playingOrEmpty {α : Type} (q : AudioQueue α) :
    q.processQueue.isPlaying = true ∨ q.processQueue.queue = [] := by
  unfold AudioQueue.processQueue
  split
  next h =>
    simp only [Bool.or_eq_true, List.isEmpty_iff] at h
    exact h
  next h => exact Or.inl rfl

theorem processQueue_of_playingOrEmpty {α : Type} (q : AudioQueue α)
    (h : q.isPlaying = true ∨ q.queue = []) : q.processQueue = q := by
  unfold AudioQueue.processQueue
  rcases h with hp | he
  · simp [hp]
  · simp [he]

theorem processBufferLoop_get_none {α : Type} (q : AudioQueue α) :
    mapGet q.processBufferLoop.pendingAudios q.processBufferLoop.nextIndex = none := by
  induction q using AudioQueue.processBufferLoop.induct with
  | case1 q blob h ih =>
    rw [AudioQueue.processBufferLoop, h]
    exact ih
  | case2 q h =>
    rw [AudioQueue.processBufferLoop, h]
    exact h

theorem processBufferLoop_nextIndex_le {α : Type} (q : AudioQueue α) :
    q.nextIndex ≤ q.processBufferLoop.nextIndex := by
  induction q using AudioQueue.processBufferLoop.induct with
  | case1 q blob h ih =>
    rw [AudioQueue.processBufferLoop, h]
    exact Nat.le_of_succ_le ih
  | case2 q h =>
    rw [AudioQueue.processBufferLoop, h]

theorem processBufferLoop_of_get_none {α : Type} (q : AudioQueue α)
    (h : mapGet q.pendingAudios q.nextIndex = none) :
    q.processBufferLoop = q := by
  rw [AudioQueue.processBufferLoop, h]



theorem natRange_append (m n a : Nat) :
    natRange a (m + n) = natRange a m ++ natRange (a + m) n := by
  induction m generalizing a with
  | zero => simp [natRange]
  | succ k ih =>
    have h1 : a + (k + 1) = (a + 1) + k := by omega
    have h2 : k + 1 + n = (k + n) + 1 := by omega
    rw [h2]
    simp only [natRange, h1, List.cons_append]
    rw [ih]

theorem processBufferLoop_released {α : Type} (q : AudioQueue α) :
    ∃ k, q.processBufferLoop.nextIndex = q.nextIndex + k ∧
      q.processBufferLoop.released.map Prod.fst =
        q.released.map Prod.fst ++ natRange q.nextIndex k := by
  induction q using AudioQueue.processBufferLoop.induct with
  | case1 q blob h ih =>
    rw [AudioQueue.processBufferLoop, h]
    obtain ⟨k, h1, h2⟩ := ih
    exact ⟨k + 1, h1.trans (by simp only [Nat.add_assoc, Nat.add_comm 1 k]),
      h2.trans (by simp [natRange, List.append_assoc])⟩
  | case2 q h =>
    rw [AudioQueue.processBufferLoop, h]
    exact ⟨0, rfl, by simp [natRange]⟩

/-- Reachable-state invariant of the queue: at rest the pending buffer
never holds the entry `nextIndex`, and the playback scheduler is either
busy or has an empty ready queue. -/
def AQInv {α : Type} (q : AudioQueue α) : Prop :=
  mapGet q.pendingAudios q.nextIndex = none ∧
    (q.isPlaying = true ∨ q.queue = [])

theorem aqInv_processBuffer {α : Type} (q : AudioQueue α) :
    AQInv q.processBuffer := by
  constructor
  · rw [AudioQueue.processBuffer, processQueue_pendingAudios,
      processQueue_nextIndex]
    exact processBufferLoop_get_none q
  · exact processQueue_playingOrEmpty _

theorem aqInv_step {α : Type} (q : AudioQueue α) (e : AQEvent α)
    (h : AQInv q) : AQInv (q.step e) := by
  cases e with
  | add b i sid =>
    rw [AudioQueue.step, AudioQueue.add]
    split
    · exact h
    · exact aqInv_processBuffer _
  | start =>
    exact ⟨rfl, Or.inr rfl⟩
  | stop =>
    exact ⟨rfl, Or.inr rfl⟩
  | ended =>
    constructor
    · rw [AudioQueue.step, AudioQueue.ended, processQueue_pendingAudios,
        processQueue_nextIndex]
      exact h.1
    · exact processQueue_playingOrEmpty _

theorem aqInv_runFrom {α : Type} (es : List (AQEvent α)) (q : AudioQueue α)
    (h : AQInv q) : AQInv (q.runFrom es) := by
  induction es generalizing q with
  | nil => exact h
  | cons e es ih => exact ih _ (aqInv_step q e h)

theorem aqInv_run {α : Type} (es : List (AQEvent α)) : AQInv (AudioQueue.run es) :=
  aqInv_runFrom es _ ⟨rfl, Or.inr rfl⟩




/-- C1 counterexample: in the reference scenario (session 1, then
`add(blobC, 2, 1)`, `add(blobA, 0, 1)`, `add(blobB, 1, 1)` with
blobA = 10, blobB = 20, blobC = 30) the ready queue afterwards is
`[blobB, blobC]`, not `[blobA, blobB, blobC]` as the claim states:
`processBuffer` triggers the playback scheduler, which immediately
dequeues blobA from the ready queue and starts playing it. -/
theorem C1_counterexample :
    c1Final.queue = [20, 30] ∧ c1Final.queue ≠ [10, 20, 30] := by
  have hq : c1Final.queue = [20, 30] := by
    simp [c1Final, AudioQueue.init, AudioQueue.startSession, AudioQueue.stop,
      AudioQueue.add, AudioQueue.processBuffer, AudioQueue.processBufferLoop,
      AudioQueue.processQueue, mapGet, mapSet, mapDelete]
  exact ⟨hq, by rw [hq]; decide⟩

/-- C1 amended: every `add` extends the release history (the sequence
of appends to the ready queue) by a consecutive run of indices starting
at the current `nextIndex`, so units are released strictly in
increasing index order regardless of arrival order; in the reference
scenario the release order is exactly blobA, blobB, blobC, with blobA
immediately dequeued for playback so the ready queue ends as
`[blobB, blobC]` while blobA plays. -/
theorem C1_release_order :
    (∀ (α : Type) (q : AudioQueue α) (b : α) (i sid : Nat), ∃ k,
        (q.add b i sid).nextIndex = q.nextIndex + k ∧
        (q.add b i sid).released.map Prod.fst =
          q.released.map Prod.fst ++ natRange q.nextIndex k) ∧
    c1Final.released = [(0, 10), (1, 20), (2, 30)] ∧
    c1Final.currentAudio = some 10 ∧ c1Final.isPlaying = true ∧
    c1Final.queue = [20, 30] := by
  refine ⟨?_, ?_⟩
  · intro α q b i sid
    rw [AudioQueue.add]
    split
    · exact ⟨0, rfl, by simp [natRange]⟩
    · obtain ⟨k, h1, h2⟩ := processBufferLoop_released
        { q with pendingAudios := mapSet q.pendingAudios i b }
      refine ⟨k, ?_, ?_⟩
      · rw [AudioQueue.processBuffer, processQueue_nextIndex]
        exact h1
      · rw [AudioQueue.processBuffer, processQueue_released]
        exact h2
  · refine ⟨?_, ?_, ?_, ?_⟩ <;>
      simp [c1Final, AudioQueue.init, AudioQueue.startSession, AudioQueue.stop,
        AudioQueue.add, AudioQueue.processBuffer, AudioQueue.processBufferLoop,
        AudioQueue.processQueue, mapGet, mapSet, mapDelete]

/-- C2: an `add` whose session id differs from the current session id
is a complete no-op on the queue state, so the ready queue, the pending
buffer and `nextIndex` are unchanged and every later behaviour is as if
the call never happened (hence the blob never appears in the ready
queue later). -/
theorem C2_stale_session_noop {α : Type} (q : AudioQueue α) (b : α)
    (i sid : Nat) (es : List (AQEvent α)) (h : sid ≠ q.currentSessionId) :
    q.add b i sid = q ∧ (q.add b i sid).runFrom es = q.runFrom es := by
  have h1 : q.add b i sid = q := by
    rw [AudioQueue.add, if_pos (bne_iff_ne.mpr h)]
  exact ⟨h1, by rw [h1]⟩

/-- C2 witness: concrete instance of the stale-session no-op. -/
theorem C2_stale_session_noop_witness :
    (7 : Nat) ≠ (AudioQueue.init (α := Nat)).currentSessionId ∧
    ((AudioQueue.init (α := Nat)).add 5 0 7 = AudioQueue.init ∧
      ((AudioQueue.init (α := Nat)).add 5 0 7).runFrom [AQEvent.stop] =
        (AudioQueue.init (α := Nat)).runFrom [AQEvent.stop]) :=
  ⟨by decide, C2_stale_session_noop AudioQueue.init 5 0 7 [AQEvent.stop] (by decide)⟩


/-- C3 code evaluation at the failing input: in session 1 the
synthesis job for index 0 fails (so index 0 is never added) while the
jobs for indices 1 and 2 succeed and are added. Contrary to the claim,
the successfully completed units 1 and 2 are never released to the
ready queue and never played: they sit in the pending buffer while
`nextIndex` stays 0, because the release loop only advances when the
exact index `nextIndex` is present. A dropped unit blocks all
subsequent units of its session. -/
theorem C3_dropped_unit_blocks :
    c3Blocked.queue = [] ∧ c3Blocked.released = [] ∧
    c3Blocked.isPlaying = false ∧ c3Blocked.nextIndex = 0 ∧
    mapGet c3Blocked.pendingAudios 1 = some 42 ∧
    mapGet c3Blocked.pendingAudios 2 = some 43 := by
  refine ⟨?_, ?_, ?_, ?_, ?_, ?_⟩ <;>
    simp [c3Blocked, AudioQueue.init, AudioQueue.startSession, AudioQueue.stop,
      AudioQueue.add, AudioQueue.processBuffer, AudioQueue.processBufferLoop,
      AudioQueue.processQueue, mapGet, mapSet, mapDelete]


/-- C7 counterexample: after session 1 and `add(11, 0, 1)` we have
`nextIndex = 1`; a `stop()` then resets `nextIndex` to 0 (a decrease),
and alternatively a duplicate `add(12, 0, 1)` leaves the entry with
index 0 in the pending buffer even though 0 is below `nextIndex = 1`.
Both halves of the claim fail as stated. -/
theorem C7_counterexample :
    c7One.nextIndex = 1 ∧ c7One.stop.nextIndex = 0 ∧
    (c7One.add 12 0 1).nextIndex = 1 ∧
    mapGet (c7One.add 12 0 1).pendingAudios 0 = some 12 := by
  refine ⟨?_, ?_, ?_, ?_⟩ <;>
    simp [c7One, AudioQueue.init, AudioQueue.startSession, AudioQueue.stop,
      AudioQueue.add, AudioQueue.processBuffer, AudioQueue.processBufferLoop,
      AudioQueue.processQueue, mapGet, mapSet, mapDelete]

/-- C7 amended: `nextIndex` never decreases across `add` calls; `stop`
and `startSession` reset it to 0 and clear the pending buffer as
deliberate teardown; and in every reachable at-rest state the pending
buffer holds no entry at index `nextIndex` (entries strictly below
`nextIndex` may remain after duplicate adds, as the counterexample
shows). -/
theorem C7_amended :
    (∀ (α : Type) (q : AudioQueue α) (b : α) (i sid : Nat),
        q.nextIndex ≤ (q.add b i sid).nextIndex) ∧
    (∀ (α : Type) (q : AudioQueue α),
        q.stop.nextIndex = 0 ∧ q.stop.pendingAudios = [] ∧
        q.startSession.1.nextIndex = 0 ∧ q.startSession.1.pendingAudios = []) ∧
    (∀ (α : Type) (es : List (AQEvent α)),
        mapGet (AudioQueue.run es).pendingAudios (AudioQueue.run es).nextIndex = none) := by
  refine ⟨?_, ?_, ?_⟩
  · intro α q b i sid
    rw [AudioQueue.add]
    split
    · exact Nat.le_refl _
    · rw [AudioQueue.processBuffer, processQueue_nextIndex]
      exact processBufferLoop_nextIndex_le
        { q with pendingAudios := mapSet q.pendingAudios i b }
  · intro α q
    exact ⟨rfl, rfl, rfl, rfl⟩
  · intro α es
    exact (aqInv_run es).1

/-- C8: `stop()` empties the ready queue and the pending buffer,
resets `nextIndex` to 0, halts playback, leaves the session id
unchanged, and is idempotent: a second consecutive `stop()` changes
nothing further. -/
theorem C8_stop_idempotent {α : Type} (q : AudioQueue α) :
    q.stop.queue = [] ∧ q.stop.pendingAudios = [] ∧ q.stop.nextIndex = 0 ∧
    q.stop.isPlaying = false ∧ q.stop.currentAudio = none ∧
    q.stop.currentSessionId = q.currentSessionId ∧ q.stop.stop = q.stop :=
  ⟨rfl, rfl, rfl, rfl, rfl, rfl, rfl⟩

/-- C10: in any reachable state, an `add` with the current session id
and an index that has already been released (index < `nextIndex`)
appends nothing to the ready queue, does not change `nextIndex`, and
extends the release history by nothing, so no audio unit is ever
released or played twice within one session. -/
theorem C10_no_double_release {α : Type} (es : List (AQEvent α)) (b : α)
    (i : Nat) (h : i < (AudioQueue.run es).nextIndex) :
    ((AudioQueue.run es).add b i (AudioQueue.run es).currentSessionId).queue =
      (AudioQueue.run es).queue ∧
    ((AudioQueue.run es).add b i (AudioQueue.run es).currentSessionId).nextIndex =
      (AudioQueue.run es).nextIndex ∧
    ((AudioQueue.run es).add b i (AudioQueue.run es).currentSessionId).released =
      (AudioQueue.run es).released := by
  have hInv := aqInv_run es
  set q := AudioQueue.run es with hq
  have hne : i ≠ q.nextIndex := Nat.ne_of_lt h
  have hstep : q.add b i q.currentSessionId =
      { q with pendingAudios := mapSet q.pendingAudios i b } := by
    rw [AudioQueue.add]
    have hc : (q.currentSessionId != q.currentSessionId) = false := by simp
    rw [hc]
    simp only [Bool.false_eq_true, if_false]
    rw [AudioQueue.processBuffer]
    rw [processBufferLoop_of_get_none _ (by
      rw [show ({ q with pendingAudios := mapSet q.pendingAudios i b } :
          AudioQueue α).pendingAudios = mapSet q.pendingAudios i b from rfl]
      rw [show ({ q with pendingAudios := mapSet q.pendingAudios i b } :
          AudioQueue α).nextIndex = q.nextIndex from rfl]
      rw [mapGet_mapSet_ne _ _ hne]
      exact hInv.1)]
    exact processQueue_of_playingOrEmpty _ hInv.2
  rw [hstep]
  exact ⟨rfl, rfl, rfl⟩

/-- C10 witness: concrete duplicate add of released index 0 after the
event sequence startSession, add(10, 0, 1). -/
theorem C10_no_double_release_witness :
    0 < (AudioQueue.run [(AQEvent.start : AQEvent Nat), AQEvent.add 10 0 1]).nextIndex ∧
    (((AudioQueue.run [(AQEvent.start : AQEvent Nat), AQEvent.add 10 0 1]).add 99 0
        (AudioQueue.run [(AQEvent.start : AQEvent Nat), AQEvent.add 10 0 1]).currentSessionId).queue =
      (AudioQueue.run [(AQEvent.start : AQEvent Nat), AQEvent.add 10 0 1]).queue ∧
    ((AudioQueue.run [(AQEvent.start : AQEvent Nat), AQEvent.add 10 0 1]).add 99 0
        (AudioQueue.run [(AQEvent.start : AQEvent Nat), AQEvent.add 10 0 1]).currentSessionId).nextIndex =
      (AudioQueue.run [(AQEvent.start : AQEvent Nat), AQEvent.add 10 0 1]).nextIndex ∧
    ((AudioQueue.run [(AQEvent.start : AQEvent Nat), AQEvent.add 10 0 1]).add 99 0
        (AudioQueue.run [(AQEvent.start : AQEvent Nat), AQEvent.add 10 0 1]).currentSessionId).released =
      (AudioQueue.run [(AQEvent.start : AQEvent Nat), AQEvent.add 10 0 1]).released) := by
  have h : 0 < (AudioQueue.run [(AQEvent.start : AQEvent Nat), AQEvent.add 10 0 1]).nextIndex := by
    simp [AudioQueue.run, AudioQueue.runFrom, AudioQueue.step, AudioQueue.init,
      AudioQueue.startSession, AudioQueue.stop, AudioQueue.add,
      AudioQueue.processBuffer, AudioQueue.processBufferLoop,
      AudioQueue.processQueue, mapGet, mapSet, mapDelete]
  exact ⟨h, C10_no_double_release [AQEvent.start, AQEvent.add 10 0 1] 99 0 h⟩



theorem segmentLoop_eq_some {st : Segmenter} {i : Nat}
    (hfind : findBoundary st.ttsBuffer = some i) :
    st.segmentLoop =
      if (jsTrim (st.ttsBuffer.take (i + 1))).isEmpty then
        Segmenter.segmentLoop ⟨st.ttsBuffer.drop (i + 1), st.sentenceIndex⟩
      else
        ((st.sentenceIndex, jsTrim (st.ttsBuffer.take (i + 1))) ::
            (Segmenter.segmentLoop
              ⟨st.ttsBuffer.drop (i + 1), st.sentenceIndex + 1⟩).1,
          (Segmenter.segmentLoop
            ⟨st.ttsBuffer.drop (i + 1), st.sentenceIndex + 1⟩).2) := by
  rw [Segmenter.segmentLoop, hfind]

theorem segmentLoop_eq_none {st : Segmenter}
    (hfind : findBoundary st.ttsBuffer = none) :
    st.segmentLoop = ([], st) := by
  rw [Segmenter.segmentLoop, hfind]

theorem segmentLoop_indices (st : Segmenter) :
    (st.segmentLoop).1.map Prod.fst =
      natRange st.sentenceIndex (st.segmentLoop).1.length ∧
    (st.segmentLoop).2.sentenceIndex =
      st.sentenceIndex + (st.segmentLoop).1.length := by
  suffices H : ∀ (n : Nat) (st : Segmenter), st.ttsBuffer.length ≤ n →
      (st.segmentLoop).1.map Prod.fst =
        natRange st.sentenceIndex (st.segmentLoop).1.length ∧
      (st.segmentLoop).2.sentenceIndex =
        st.sentenceIndex + (st.segmentLoop).1.length by
    exact H st.ttsBuffer.length st (Nat.le_refl _)
  intro n
  induction n with
  | zero =>
    intro st hle
    have hb : st.ttsBuffer = [] := List.eq_nil_of_length_eq_zero (Nat.le_zero.mp hle)
    have hf : findBoundary st.ttsBuffer = none := by rw [hb]; rfl
    rw [segmentLoop_eq_none hf]
    simp [natRange]
  | succ n ih =>
    intro st hle
    cases hfind : findBoundary st.ttsBuffer with
    | none =>
      rw [segmentLoop_eq_none hfind]
      simp [natRange]
    | some i =>
      have hi := findBoundary_lt_length hfind
      have hrest : (st.ttsBuffer.drop (i + 1)).length ≤ n := by
        rw [List.length_drop]; omega
      rw [segmentLoop_eq_some hfind]
      by_cases hemp : (jsTrim (st.ttsBuffer.take (i + 1))).isEmpty
      · rw [if_pos hemp]
        exact ih ⟨st.ttsBuffer.drop (i + 1), st.sentenceIndex⟩ hrest
      · rw [if_neg hemp]
        obtain ⟨ih1, ih2⟩ := ih ⟨st.ttsBuffer.drop (i + 1), st.sentenceIndex + 1⟩ hrest
        constructor
        · simp only [List.map_cons, List.length_cons]
          rw [ih1]
          rfl
        · simp only [List.length_cons]
          rw [ih2]
          simp
          omega

theorem feedAll_nil (st : Segmenter) : st.feedAll [] = ([], st) := rfl

theorem feedAll_cons (st : Segmenter) (f : List Char) (fs : List (List Char)) :
    st.feedAll (f :: fs) =
      ((st.feedContent f).1 ++ (Segmenter.feedAll (st.feedContent f).2 fs).1,
        (Segmenter.feedAll (st.feedContent f).2 fs).2) := rfl

theorem feedContent_eq (st : Segmenter) (f : List Char) :
    st.feedContent f =
      Segmenter.segmentLoop ⟨st.ttsBuffer ++ f, st.sentenceIndex⟩ := rfl

theorem feedAll_indices (frags : List (List Char)) :
    ∀ st : Segmenter,
      ((st.feedAll frags).1).map Prod.fst =
        natRange st.sentenceIndex (st.feedAll frags).1.length ∧
      (st.feedAll frags).2.sentenceIndex =
        st.sentenceIndex + (st.feedAll frags).1.length := by
  induction frags with
  | nil =>
    intro st
    rw [feedAll_nil]
    simp [natRange]
  | cons f fs ih =>
    intro st
    rw [feedAll_cons, feedContent_eq]
    obtain ⟨s1, s2⟩ := segmentLoop_indices ⟨st.ttsBuffer ++ f, st.sentenceIndex⟩
    obtain ⟨a1, a2⟩ :=
      ih (Segmenter.segmentLoop ⟨st.ttsBuffer ++ f, st.sentenceIndex⟩).2
    constructor
    · simp only [List.map_append, List.length_append]
      rw [s1, a1, s2]
      rw [natRange_append]
    · simp only [List.length_append]
      rw [a2, s2]
      simp [Nat.add_assoc]

theorem segmentGeneration_eq (frags : List (List Char)) :
    segmentGeneration frags =
      (Segmenter.feedAll ⟨[], 0⟩ frags).1 ++
        Segmenter.flushRemaining (Segmenter.feedAll ⟨[], 0⟩ frags).2 := rfl

/-- C4: indices emitted by one generation are contiguous from 0 and
strictly increasing (hence no unit is emitted twice), and the reference
example segments as specified. -/
theorem C4_segmentation :
    (∀ frags : List (List Char),
        (segmentGeneration frags).map Prod.fst =
          natRange 0 (segmentGeneration frags).length) ∧
    segmentGeneration ["Hello, ".data, "world. How".data, " are you?".data] =
      [(0, "Hello,".data), (1, "world.".data), (2, "How are you?".data)] := by
  constructor
  · intro frags
    obtain ⟨a1, a2⟩ := feedAll_indices frags ⟨[], 0⟩
    rw [segmentGeneration_eq]
    by_cases hemp :
        (jsTrim (Segmenter.feedAll ⟨[], 0⟩ frags).2.ttsBuffer).isEmpty
    · rw [Segmenter.flushRemaining, if_pos hemp]
      simpa using a1
    · rw [Segmenter.flushRemaining, if_neg hemp]
      simp only [List.map_append, List.length_append, List.map_cons,
        List.map_nil, List.length_cons, List.length_nil]
      rw [a1, a2]
      have h1 : (Segmenter.feedAll ⟨[], 0⟩ frags).1.length + (0 + 1) =
          (Segmenter.feedAll ⟨[], 0⟩ frags).1.length + 1 := by omega
      rw [h1, natRange_append ((Segmenter.feedAll ⟨[], 0⟩ frags).1.length) 1 0]
      simp [natRange]
  · simp +decide [segmentGeneration, Segmenter.feedAll, Segmenter.feedContent,
      Segmenter.segmentLoop, Segmenter.flushRemaining, findBoundary,
      isBoundaryChar, jsTrim, isJsSpace]



theorem truncQ_intCast (n : ℤ) : truncQ (n : ℚ) = n := by
  unfold truncQ
  split
  · rw [← Int.cast_neg, Rat.num_intCast, Rat.den_intCast]
    simp
  · rw [Rat.num_intCast, Rat.den_intCast]
    simp

/-- C5: the PCM conversion clamps each sample to [-1, 1] and then
scales negative values by 32768 and non-negative values by 32767; in
particular the inputs -1.5, -1, 0, 1, 1.5 produce -32768, -32768, 0,
32767, 32767, and clamping holds at both extremes in general. -/
theorem C5_sample_scaling :
    toPcm16 (-3/2) = -32768 ∧ toPcm16 (-1) = -32768 ∧ toPcm16 0 = 0 ∧
    toPcm16 1 = 32767 ∧ toPcm16 (3/2) = 32767 ∧
    (∀ x : ℚ, x ≤ -1 → toPcm16 x = -32768) ∧
    (∀ x : ℚ, 1 ≤ x → toPcm16 x = 32767) := by
  refine ⟨?_, ?_, ?_, ?_, ?_, ?_, ?_⟩
  · norm_num [toPcm16, truncQ, int16Store]
  · norm_num [toPcm16, truncQ, int16Store]
  · norm_num [toPcm16, truncQ, int16Store]
  · norm_num [toPcm16, truncQ, int16Store]
  · norm_num [toPcm16, truncQ, int16Store]
  · intro x hx
    have hmin : min 1 x = x := min_eq_right (by linarith)
    have hmax : max (-1 : ℚ) x = -1 := max_eq_left hx
    rw [toPcm16, hmin, hmax]
    norm_num [truncQ, int16Store]
  · intro x hx
    have hmin : min 1 x = 1 := min_eq_left hx
    have hmax : max (-1 : ℚ) (1 : ℚ) = 1 := by norm_num
    rw [toPcm16, hmin, hmax]
    norm_num [truncQ, int16Store]

/-- C5 witness: clamping instances at concrete out-of-range inputs. -/
theorem C5_sample_scaling_witness :
    toPcm16 (-2) = -32768 ∧ toPcm16 2 = 32767 :=
  ⟨C5_sample_scaling.2.2.2.2.2.1 (-2) (by norm_num),
    C5_sample_scaling.2.2.2.2.2.2 2 (by norm_num)⟩

theorem process_spec (xs : List ℚ) :
    ∀ st : AudioProcessor, st.buffer.length < bufferSize →
      ((st.process xs).2).map List.length =
        List.replicate ((st.buffer.length + xs.length) / bufferSize) bufferSize ∧
      (st.process xs).1.buffer.length =
        (st.buffer.length + xs.length) % bufferSize ∧
      ((st.process xs).2).flatten ++ (st.process xs).1.buffer =
        st.buffer ++ xs.map toPcm16 := by
  induction xs with
  | nil =>
    intro st h
    refine ⟨?_, ?_, ?_⟩ <;>
      simp [AudioProcessor.process, Nat.div_eq_of_lt h, Nat.mod_eq_of_lt h]
  | cons x xs ih =>
    intro st hlt
    by_cases hfull : (st.buffer ++ [toPcm16 x]).length ≥ bufferSize
    · have hk : st.buffer.length + 1 = bufferSize := by
        rw [List.length_append, List.length_singleton] at hfull
        omega
      have hpush : st.pushSample x = (⟨[]⟩, [st.buffer ++ [toPcm16 x]]) := by
        rw [AudioProcessor.pushSample, if_pos hfull, AudioProcessor.flush]
        simp
      have hstep : st.process (x :: xs) =
          ((AudioProcessor.process ⟨[]⟩ xs).1,
            [st.buffer ++ [toPcm16 x]] ++ (AudioProcessor.process ⟨[]⟩ xs).2) := by
        rw [AudioProcessor.process, hpush]
      obtain ⟨ih1, ih2, ih3⟩ := ih ⟨[]⟩ (by simp [bufferSize])
      rw [hstep]
      refine ⟨?_, ?_, ?_⟩
      · simp only [List.map_append, List.map_cons, List.map_nil,
          List.length_cons]
        rw [ih1]
        have hcount : st.buffer.length + (xs.length + 1) =
            xs.length + bufferSize := by omega
        rw [hcount, Nat.add_div_right _ (show 0 < bufferSize by simp [bufferSize])]
        simp [List.replicate_succ, hk]
      · rw [ih2]
        simp only [List.length_cons]
        have hcount : st.buffer.length + (xs.length + 1) =
            xs.length + bufferSize := by omega
        rw [hcount, Nat.add_mod_right]
        simp
      · rw [List.flatten_append]
        simp only [List.flatten_cons, List.flatten_nil, List.append_nil]
        rw [List.append_assoc, ih3]
        simp [List.append_assoc]
    · have hklt : st.buffer.length + 1 < bufferSize := by
        rw [List.length_append, List.length_singleton] at hfull
        omega
      have hpush : st.pushSample x = (⟨st.buffer ++ [toPcm16 x]⟩, []) := by
        rw [AudioProcessor.pushSample, if_neg hfull]
      have hstep : st.process (x :: xs) =
          ((AudioProcessor.process ⟨st.buffer ++ [toPcm16 x]⟩ xs).1,
            [] ++ (AudioProcessor.process ⟨st.buffer ++ [toPcm16 x]⟩ xs).2) := by
        rw [AudioProcessor.process, hpush]
      obtain ⟨ih1, ih2, ih3⟩ := ih ⟨st.buffer ++ [toPcm16 x]⟩ (by simpa using hklt)
      rw [hstep]
      refine ⟨?_, ?_, ?_⟩
      · simp only [List.nil_append]
        rw [ih1]
        have h1 : (⟨st.buffer ++ [toPcm16 x]⟩ : AudioProcessor).buffer.length +
            xs.length = st.buffer.length + (x :: xs).length := by
          simp
          omega
        rw [h1]
      · simp only [List.nil_append]
        rw [ih2]
        have h1 : (⟨st.buffer ++ [toPcm16 x]⟩ : AudioProcessor).buffer.length +
            xs.length = st.buffer.length + (x :: xs).length := by
          simp
          omega
        rw [h1]
      · simp only [List.nil_append]
        rw [ih3]
        simp [List.append_assoc]

theorem init_buffer : (AudioProcessor.init).buffer = [] := rfl

theorem C6_frame_sizing (xs : List ℚ) :
    ((AudioProcessor.init.process xs).2).map List.length =
      List.replicate (xs.length / 512) 512 ∧
    (((AudioProcessor.init.process xs).1.flush).2).map List.length =
      (if xs.length % 512 = 0 then [] else [xs.length % 512]) ∧
    (((AudioProcessor.init.process xs).1.flush).1).buffer = [] ∧
    ((AudioProcessor.init.process xs).2 ++
        ((AudioProcessor.init.process xs).1.flush).2).flatten =
      xs.map toPcm16 := by
  obtain ⟨h1, h2, h3⟩ :=
    process_spec xs AudioProcessor.init (by simp [AudioProcessor.init, bufferSize])
  rw [init_buffer] at h1 h2 h3
  simp only [List.length_nil, Nat.zero_add, List.nil_append] at h1 h2 h3
  simp only [bufferSize] at h1 h2
  by_cases hz : xs.length % 512 = 0
  · have hb : (AudioProcessor.init.process xs).1.buffer = [] :=
      List.eq_nil_of_length_eq_zero (by rw [h2, hz])
    have hflush : (AudioProcessor.init.process xs).1.flush =
        ((AudioProcessor.init.process xs).1, []) := by
      rw [AudioProcessor.flush, hb]
      simp
    refine ⟨h1, ?_, ?_, ?_⟩
    · rw [hflush, if_pos hz]
      rfl
    · rw [hflush]
      exact hb
    · rw [hflush]
      rw [hb] at h3
      simp only [List.append_nil] at h3
      simpa using h3
  · have hpos : (AudioProcessor.init.process xs).1.buffer.length > 0 := by
      rw [h2]
      exact Nat.pos_of_ne_zero hz
    have hflush : (AudioProcessor.init.process xs).1.flush =
        (⟨[]⟩, [(AudioProcessor.init.process xs).1.buffer]) := by
      rw [AudioProcessor.flush, if_pos hpos]
    refine ⟨h1, ?_, ?_, ?_⟩
    · rw [hflush, if_neg hz]
      simp only [List.map_cons, List.map_nil]
      rw [h2]
    · rw [hflush]
    · rw [hflush, List.flatten_append]
      simp only [List.flatten_cons, List.flatten_nil, List.append_nil]
      exact h3

/-- C9: a frame callback that fires while `isRecording` is false (for
example after a stop request) or while the socket is not open leaves
the client state completely unchanged: the frame is silently dropped
and nothing is buffered for later sending; in particular after
`stopRecording` every frame is dropped. -/
theorem C9_frames_dropped {φ : Type} (c : AsrClient φ) (f : φ)
    (h : c.isRecording = false ∨ c.readyState ≠ WsReadyState.opened) :
    c.onAudioFrame f = c ∧
    (c.stopRecording).onAudioFrame f = c.stopRecording := by
  constructor
  · rcases h with h | h
    · simp [AsrClient.onAudioFrame, h]
    · have hb : (c.readyState == WsReadyState.opened) = false :=
        beq_eq_false_iff_ne.mpr h
      simp [AsrClient.onAudioFrame, hb]
  · simp [AsrClient.onAudioFrame, AsrClient.stopRecording]

/-- C9 witness: a concrete frame arriving on a closed socket. -/
theorem C9_frames_dropped_witness :
    ((⟨true, WsReadyState.closed, []⟩ : AsrClient Nat).onAudioFrame 5 =
        ⟨true, WsReadyState.closed, []⟩) ∧
    ((⟨true, WsReadyState.closed, []⟩ : AsrClient Nat).stopRecording.onAudioFrame 5 =
      (⟨true, WsReadyState.closed, []⟩ : AsrClient Nat).stopRecording) :=
  C9_frames_dropped ⟨true, WsReadyState.closed, []⟩ 5 (Or.inr (by decide))

end LiveChat
